import Mathlib

/-!
Verification of the Clockify aggregation/capacity engine
(custom_components/clockify/__init__.py).

Shallow embedding conventions:
- Python floats are modelled as exact rationals (ℚ).
- Python int() truncation toward zero is ratTrunc; Python round(x, n)
  (round-half-to-even) is pyRound.
- Timestamps are modelled as rationals (seconds since an arbitrary epoch),
  i.e. the value that datetime.fromisoformat produces, since the code only
  ever subtracts two of them and truncates.
- Python dicts with known keys are structures with Option-valued fields
  (a missing key is none); dict.get with a default is Option.getD.
- A fallible collaborator call (aiohttp fetch) is an Except Unit value:
  Except.error () models a raised exception, Except.ok models a returned
  value (for project/task lookups, Except.ok none models a non-200 status,
  which the code turns into None without raising).
-/

/-- Python int() applied to an exact rational: truncation toward zero. -/
def ratTrunc (q : ℚ) : ℤ := q.num.tdiv q.den

/-- Rounding half to even of an exact rational to an integer, as Python's
round does on floats (ignoring binary representation error). -/
def rndHalfEven (q : ℚ) : ℤ :=
  let n : ℤ := ⌊q⌋
  let f : ℚ := q - n
  if f < 1/2 then n
  else if 1/2 < f then n + 1
  else if n % 2 = 0 then n else n + 1

/-- Python round(x, d) on an exact rational. -/
def pyRound (q : ℚ) (d : ℕ) : ℚ := (rndHalfEven (q * 10 ^ d) : ℚ) / 10 ^ d

/-- Python format f-string 02d applied to a natural number:
zero-pad to width two. -/
def pad2 (n : ℕ) : String := if n < 10 then "0" ++ toString n else toString n

/-! Week calendar (source: _get_week_start_offset, _get_week_day_order,
_calculate_days_since_week_start). A date enters these functions only
through date.weekday(), so dates are modelled as Fin 7 (0 = Monday). -/

/-- Canonical Python weekday order used by the source (0 = Mon .. 6 = Sun). -/
def standard_order : List String :=
  [("Mon"), ("Tue"), ("Wed"), ("Thu"), ("Fri"), ("Sat"), ("Sun")]

/-- Source _get_week_start_offset: dict get with default 0 (Monday). -/
def get_week_start_offset (week_start_day : String) : ℕ :=
  if week_start_day = "MONDAY" then 0
  else if week_start_day = "SUNDAY" then 6
  else if week_start_day = "SATURDAY" then 5
  else 0

/-- Source _get_week_day_order: rotate the canonical order left by the
week-start offset (Python list slicing order[off:] + order[:off]). -/
def get_week_day_order (week_start_day : String) : List String :=
  let off := get_week_start_offset week_start_day
  standard_order.drop off ++ standard_order.take off

/-- Source _calculate_days_since_week_start: days elapsed since the start
of the week (0 = week start day), from the date's weekday. -/
def calculate_days_since_week_start (current_weekday : Fin 7)
    (week_start_day : String) : ℕ :=
  let off := get_week_start_offset week_start_day
  if off ≤ (current_weekday : ℕ) then (current_weekday : ℕ) - off
  else 7 - off + (current_weekday : ℕ)

/-! ISO-8601 short-duration parsing (source: _parse_iso_duration).
The source works on Python strings with str.split; we embed it on
List Char, with String entry points applying String.data. -/

/-- Python str.split with a single-character separator. -/
def splitOnChar (c : Char) : List Char → List (List Char)
  | [] => [[]]
  | x :: xs =>
    match splitOnChar c xs with
    | [] => [[x]]
    | y :: ys => if x = c then [] :: y :: ys else (x :: y) :: ys

/-- Numeric value of a list of decimal digit characters. -/
def natOfDigits (l : List Char) : ℕ :=
  l.foldl (fun a c => 10 * a + (c.toNat - 48)) 0

/-- Whitespace stripped by Python float() before parsing. -/
def isPyWs (c : Char) : Bool :=
  (c = ' ') || (c = '\t') || (c = '\n') || (c = '\r') ||
  (c = '\x0b') || (c = '\x0c')

/-- Optional exponent part of a Python float literal; the whole remaining
input must be consumed. -/
def pyFloatExp (r : List Char) (v : ℚ) : Option ℚ :=
  match r with
  | [] => some v
  | c :: r2 =>
    if c = 'e' ∨ c = 'E' then
      let (negE, r3) :=
        match r2 with
        | '+' :: r3 => (false, r3)
        | '-' :: r3 => (true, r3)
        | r3 => (false, r3)
      let ds := r3.takeWhile Char.isDigit
      if ds = [] ∨ r3.dropWhile Char.isDigit ≠ [] then none
      else if negE then some (v / 10 ^ natOfDigits ds)
      else some (v * 10 ^ natOfDigits ds)
    else none

/-- Unsigned part of a Python float literal: digits with an optional
decimal point and an optional exponent. -/
def pyFloatUnsigned (t : List Char) : Option ℚ :=
  let ds1 := t.takeWhile Char.isDigit
  match t.dropWhile Char.isDigit with
  | '.' :: r2 =>
    let ds2 := r2.takeWhile Char.isDigit
    if ds1 = [] ∧ ds2 = [] then none
    else pyFloatExp (r2.dropWhile Char.isDigit)
      ((natOfDigits ds1 : ℚ) + (natOfDigits ds2 : ℚ) / 10 ^ ds2.length)
  | r =>
    if ds1 = [] then none else pyFloatExp r (natOfDigits ds1 : ℚ)

/-- Python float(str) on finite decimal literals: optional sign, digits
with optional fraction and exponent, surrounding whitespace stripped.
none models a ValueError. The inf/nan spellings and numeric-separator
underscores accepted by CPython are outside this model (treated as a
parse failure); no input exercised by the spec or the claims uses them. -/
def pyFloat (s : List Char) : Option ℚ :=
  let t := ((s.dropWhile isPyWs).reverse.dropWhile isPyWs).reverse
  match t with
  | [] => none
  | c :: r =>
    if c = '+' then pyFloatUnsigned r
    else if c = '-' then (pyFloatUnsigned r).map Neg.neg
    else pyFloatUnsigned t

/-- Core of the source _parse_iso_duration after the PT prefix has been
removed: optional hours field split on H, then optional minutes field
split on M; any float ValueError makes the whole call return 0.0. -/
def parse_iso_duration_core (d : List Char) : ℚ :=
  if 'H' ∈ d then
    match pyFloat ((splitOnChar 'H' d).getD 0 []) with
    | none => 0
    | some hours =>
      if 'M' ∈ (splitOnChar 'H' d).getD 1 [] then
        match
          pyFloat ((splitOnChar 'M' ((splitOnChar 'H' d).getD 1 [])).getD 0 [])
          with
        | none => 0
        | some minutes => hours + minutes / 60
      else hours + 0 / 60
  else
    if 'M' ∈ d then
      match pyFloat ((splitOnChar 'M' d).getD 0 []) with
      | none => 0
      | some minutes => 0 + minutes / 60
    else 0 + 0 / 60

/-- Source _parse_iso_duration: strings not starting with PT parse to 0.0,
otherwise the rest is parsed by parse_iso_duration_core. -/
def parse_iso_duration (s : String) : ℚ :=
  match s.data with
  | c1 :: c2 :: rest =>
    if c1 = 'P' ∧ c2 = 'T' then parse_iso_duration_core rest else 0
  | _ => 0

/-! Progress calculator (source: _calculate_progress_metrics). -/

/-- Result record of _calculate_progress_metrics. Seconds are integers,
percent and hours are exact rationals standing for Python floats. -/
structure ProgressMetrics where
  progress_percent : ℚ
  remaining_seconds : ℤ
  remaining_hours : ℚ
  remaining_formatted : String
deriving Repr, DecidableEq

/-- Source _calculate_progress_metrics. The remaining seconds are
max 0 (expected - logged), hence nonnegative, so the Python floor
divisions used for the HH:MM rendering are embedded as ℕ divisions
on the toNat image. -/
def calculate_progress_metrics (logged_seconds expected_seconds : ℤ) :
    ProgressMetrics :=
  if 0 < expected_seconds then
    let remaining : ℤ := max 0 (expected_seconds - logged_seconds)
    let remNat : ℕ := remaining.toNat
    { progress_percent :=
        pyRound ((logged_seconds : ℚ) / (expected_seconds : ℚ) * 100) 1
      remaining_seconds := remaining
      remaining_hours := pyRound ((remaining : ℚ) / 3600) 2
      remaining_formatted :=
        pad2 (remNat / 3600) ++ (":") ++ pad2 (remNat % 3600 / 60) }
  else
    { progress_percent := 0
      remaining_seconds := 0
      remaining_hours := 0
      remaining_formatted := ("00:00") }

/-! Capacity model parser (source: _calculate_expected_hours). -/

/-- One value of the per-weekday workWeek mapping, a dict with optional
isWorkDay and duration keys; a missing day maps to the empty dict,
modelled as both fields none. -/
structure WWDay where
  isWorkDay : Option Bool
  duration : Option String
deriving Repr, DecidableEq

/-- Raw schedule payload (the member profile dict). Each recognized key is
an Option-valued field; none is a missing key. The workingDays key may
arrive as a JSON-encoded string in the source; it is modelled here
post-decode (a failed decode is the empty list, exactly what the source's
json.loads fallback produces). -/
structure SchedulePayload where
  workCapacity : Option String
  workingDays : Option (List String)
  workWeek : Option (List (String × WWDay))
  daysOfWeek : Option (List String)
  hoursPerDay : Option ℚ
  weekStart : Option String
deriving Repr, DecidableEq

/-- Result record of _calculate_expected_hours. -/
structure ExpectedHours where
  daily_expected_seconds : ℤ
  daily_expected_hours : ℚ
  weekly_expected_seconds : ℤ
  weekly_expected_hours : ℚ
  weekly_to_date_expected_seconds : ℤ
  weekly_to_date_expected_hours : ℚ
  weekly_remaining_expected_seconds : ℤ
  weekly_remaining_expected_hours : ℚ
  working_days : List String
deriving Repr, DecidableEq

/-- The Mon-Fri working-day list of the source's default schedule. -/
def weekdays5 : List String :=
  [("Mon"), ("Tue"), ("Wed"), ("Thu"), ("Fri")]

/-- Source day_mapping.get(day, day[:3]): map a Clockify upper-case day
name to its short label, unknown spellings degrade to the first three
characters. -/
def day_mapping_get (day : String) : String :=
  if day = "MONDAY" then ("Mon")
  else if day = "TUESDAY" then ("Tue")
  else if day = "WEDNESDAY" then ("Wed")
  else if day = "THURSDAY" then ("Thu")
  else if day = "FRIDAY" then ("Fri")
  else if day = "SATURDAY" then ("Sat")
  else if day = "SUNDAY" then ("Sun")
  else day.take 3

/-- Iteration order of the workWeek day_mapping dict (insertion order in
the source). -/
def work_week_day_pairs : List (String × String) :=
  [(("monday"), ("Mon")), (("tuesday"), ("Tue")), (("wednesday"), ("Wed")),
   (("thursday"), ("Thu")), (("friday"), ("Fri")), (("saturday"), ("Sat")),
   (("sunday"), ("Sun"))]

/-- The workWeek loop of the source: walk the day mapping in order,
collect working days and their parsed per-day hours. -/
def buildWorkWeek (ww : List (String × WWDay)) :
    List (String × String) → List String × List (String × ℚ)
  | [] => ([], [])
  | (api, short) :: rest =>
    let acc := buildWorkWeek ww rest
    let day_data := (ww.lookup api).getD ⟨none, none⟩
    if day_data.isWorkDay.getD false then
      (short :: acc.1,
       (short, parse_iso_duration (day_data.duration.getD ("PT0H"))) :: acc.2)
    else acc

/-- Default branch of _calculate_expected_hours (no schedule payload):
Mon-Fri, 8 hours per day.  Note the to-date figure is the source's
min(days_since_week_start + 1, 5) shortcut, not a scan of the ordered
weekdays; the remaining figure is a scan. -/
def default_expected_hours (current_weekday : Fin 7)
    (week_start_day : String) : ExpectedHours :=
  let day_name := standard_order.getD (current_weekday : ℕ) ("")
  let is_working := weekdays5.contains day_name
  let dsws := calculate_days_since_week_start current_weekday week_start_day
  let wdo := get_week_day_order week_start_day
  let working_days_to_date : ℕ := min (dsws + 1) 5
  let working_days_remaining : ℕ :=
    ((wdo.drop (dsws + 1)).filter (fun d => weekdays5.contains d)).length
  { daily_expected_seconds := if is_working then 8 * 3600 else 0
    daily_expected_hours := if is_working then 8 else 0
    weekly_expected_seconds := 5 * 8 * 3600
    weekly_expected_hours := 40
    weekly_to_date_expected_seconds := (working_days_to_date : ℤ) * 8 * 3600
    weekly_to_date_expected_hours := (working_days_to_date : ℚ) * 8
    weekly_remaining_expected_seconds :=
      (working_days_remaining : ℤ) * 8 * 3600
    weekly_remaining_expected_hours := (working_days_remaining : ℚ) * 8
    working_days := if is_working then weekdays5 else [] }

/-- Shared body of the member-capacity branch and the legacy
daysOfWeek/hoursPerDay branch of _calculate_expected_hours (the two code
blocks are identical): every working day carries the same capacity. -/
def uniform_expected_hours (working_days : List String)
    (hours_per_day : ℚ) (current_weekday : Fin 7) (week_start_day : String) :
    ExpectedHours :=
  let current_day_name := standard_order.getD (current_weekday : ℕ) ("")
  let day_seconds : ℤ := ratTrunc (hours_per_day * 3600)
  let dsws := calculate_days_since_week_start current_weekday week_start_day
  let wdo := get_week_day_order week_start_day
  let working_days_to_date : ℕ :=
    ((wdo.take (dsws + 1)).filter (fun d => working_days.contains d)).length
  let working_days_remaining : ℕ :=
    ((wdo.drop (dsws + 1)).filter (fun d => working_days.contains d)).length
  { daily_expected_seconds :=
      if working_days.contains current_day_name then day_seconds else 0
    daily_expected_hours :=
      if working_days.contains current_day_name then hours_per_day else 0
    weekly_expected_seconds := (working_days.length : ℤ) * day_seconds
    weekly_expected_hours := (working_days.length : ℚ) * hours_per_day
    weekly_to_date_expected_seconds := (working_days_to_date : ℤ) * day_seconds
    weekly_to_date_expected_hours := (working_days_to_date : ℚ) * hours_per_day
    weekly_remaining_expected_seconds :=
      (working_days_remaining : ℤ) * day_seconds
    weekly_remaining_expected_hours :=
      (working_days_remaining : ℚ) * hours_per_day
    working_days := working_days }

/-- The workWeek branch of _calculate_expected_hours: per-day durations
summed as hours, each seconds figure truncated from the hour sum. -/
def work_week_expected_hours (ww : List (String × WWDay))
    (current_weekday : Fin 7) (week_start_day : String) : ExpectedHours :=
  let built := buildWorkWeek ww work_week_day_pairs
  let daily_hours := built.2
  let current_day_name := standard_order.getD (current_weekday : ℕ) ("")
  let dsws := calculate_days_since_week_start current_weekday week_start_day
  let wdo := get_week_day_order week_start_day
  let total_weekly_hours : ℚ := (daily_hours.map (fun kv => kv.2)).sum
  let week_to_date_hours : ℚ :=
    ((wdo.take (dsws + 1)).map
      (fun d => (daily_hours.lookup d).getD 0)).sum
  let week_remaining_hours : ℚ :=
    ((wdo.drop (dsws + 1)).map
      (fun d => (daily_hours.lookup d).getD 0)).sum
  { daily_expected_seconds :=
      match daily_hours.lookup current_day_name with
      | some h => ratTrunc (h * 3600)
      | none => 0
    daily_expected_hours :=
      match daily_hours.lookup current_day_name with
      | some h => h
      | none => 0
    weekly_expected_seconds := ratTrunc (total_weekly_hours * 3600)
    weekly_expected_hours := total_weekly_hours
    weekly_to_date_expected_seconds := ratTrunc (week_to_date_hours * 3600)
    weekly_to_date_expected_hours := week_to_date_hours
    weekly_remaining_expected_seconds := ratTrunc (week_remaining_hours * 3600)
    weekly_remaining_expected_hours := week_remaining_hours
    working_days := built.1 }

/-- Source _calculate_expected_hours: shape dispatch. A none payload is
the Python falsy member profile (None or empty dict). The member-capacity
branch fires when both workCapacity and workingDays keys are present; the
legacy branch fires when workWeek is missing or empty and daysOfWeek is a
non-empty list; everything else falls through to the workWeek parser
(with an empty workWeek it yields the all-zero record with no working
days, as the source does). -/
def calculate_expected_hours (user_schedule : Option SchedulePayload)
    (current_weekday : Fin 7) (week_start_day : String) : ExpectedHours :=
  match user_schedule with
  | none => default_expected_hours current_weekday week_start_day
  | some p =>
    if p.workCapacity.isSome ∧ p.workingDays.isSome then
      uniform_expected_hours
        ((p.workingDays.getD []).map day_mapping_get)
        (parse_iso_duration (p.workCapacity.getD ("PT8H")))
        current_weekday week_start_day
    else if (p.workWeek.getD []) = [] ∧ (p.daysOfWeek.getD []) ≠ [] then
      uniform_expected_hours
        ((p.daysOfWeek.getD []).map day_mapping_get)
        (p.hoursPerDay.getD 8)
        current_weekday week_start_day
    else
      work_week_expected_hours (p.workWeek.getD [])
        current_weekday week_start_day

/-- Lower-case API key of the workWeek dict for a short day label (used
only to state the per-day capacity of the workWeek shape). -/
def api_day_of (day : String) : String :=
  if day = "Mon" then ("monday")
  else if day = "Tue" then ("tuesday")
  else if day = "Wed" then ("wednesday")
  else if day = "Thu" then ("thursday")
  else if day = "Fri" then ("friday")
  else if day = "Sat" then ("saturday")
  else ("sunday")

/-- Per-weekday capacity, in hours, that each shape of the schedule
payload configures: the parsed workCapacity for the member-capacity
shape, hoursPerDay for the legacy shape, the parsed per-day duration for
the workWeek shape, and 8 for the default schedule. -/
def day_capacity_hours (user_schedule : Option SchedulePayload)
    (day : String) : ℚ :=
  match user_schedule with
  | none => 8
  | some p =>
    if p.workCapacity.isSome ∧ p.workingDays.isSome then
      parse_iso_duration (p.workCapacity.getD ("PT8H"))
    else if (p.workWeek.getD []) = [] ∧ (p.daysOfWeek.getD []) ≠ [] then
      p.hoursPerDay.getD 8
    else
      parse_iso_duration
        ((((p.workWeek.getD []).lookup (api_day_of day)).getD
          ⟨none, none⟩).duration.getD ("PT0H"))

/-! Exclusion policy and duration extractor (source:
_should_exclude_time_entry and the summation loop of
_async_get_daily_time / _async_get_weekly_time). -/

/-- Project payload, used only for the name test; a missing name key is
none (the source reads it with get with default empty string). -/
structure ProjectRef where
  name : Option String
deriving Repr, DecidableEq

/-- Task payload returned by the task detail fetch; only carried through. -/
structure TaskRef where
  name : Option String
deriving Repr, DecidableEq

/-- Start/end of a time entry, already parsed to epoch seconds; none is a
missing, null or empty value (all falsy in the source's truthiness test). -/
structure TimeInterval where
  start : Option ℚ
  endT : Option ℚ
deriving Repr, DecidableEq

/-- A time entry as the aggregation reads it. -/
structure TimeEntry where
  type : Option String
  projectId : Option String
  taskId : Option String
  timeInterval : TimeInterval
deriving Repr, DecidableEq

/-- ASCII lower-casing as Python str.lower() performs on the ASCII range
(the only range the breaks comparison can match). -/
def pyLower (s : String) : String :=
  ⟨s.data.map Char.toLower⟩

/-- The source test: project data is truthy and its name lower-cases to
the literal breaks. -/
def project_is_breaks (project_data : Option ProjectRef) : Bool :=
  match project_data with
  | none => false
  | some pr => pyLower (pr.name.getD ("")) = ("breaks")

/-- A project lookup collaborator: Except.error () is a raised transport
error, Except.ok none a non-200 response (the source logs and returns
None), Except.ok (some p) a fetched project. -/
def ProjectLookup : Type := String → Except Unit (Option ProjectRef)

/-- Source _should_exclude_time_entry, with the per-call project cache
threaded explicitly (an association list standing for the Python dict).
Returns the decision together with the updated cache. The source guards
the cache read with the dict's truthiness, reads the collaborator on a
miss, stores the result (even a None project), and converts any raised
lookup error into not-excluded without touching the cache. -/
def should_exclude_time_entry (lookup : ProjectLookup) (entry : TimeEntry)
    (project_cache : List (String × Option ProjectRef)) :
    Bool × List (String × Option ProjectRef) :=
  if entry.type = some ("BREAK") then (true, project_cache)
  else
    match entry.projectId with
    | none => (false, project_cache)
    | some project_id =>
      if project_id = "" then (false, project_cache)
      else
        match
          (if project_cache ≠ [] then project_cache.lookup project_id
           else none) with
        | some project_data => (project_is_breaks project_data, project_cache)
        | none =>
          match lookup project_id with
          | Except.error _ => (false, project_cache)
          | Except.ok project_data =>
            (project_is_breaks project_data,
             (project_id, project_data) :: project_cache)

/-- Cache-free exclusion decision: the value should_exclude_time_entry
computes whenever its cache only memoizes the collaborator. -/
def excluded_of (lookup : ProjectLookup) (entry : TimeEntry) : Bool :=
  if entry.type = some ("BREAK") then true
  else
    match entry.projectId with
    | none => false
    | some project_id =>
      if project_id = "" then false
      else
        match lookup project_id with
        | Except.error _ => false
        | Except.ok project_data => project_is_breaks project_data

/-- Seconds a single closed entry contributes: int((end - start)
.total_seconds()) when both bounds are present, nothing otherwise. -/
def entry_duration (entry : TimeEntry) : ℤ :=
  match entry.timeInterval.start, entry.timeInterval.endT with
  | some s, some e => ratTrunc (e - s)
  | _, _ => 0

/-- Whether an entry has both interval bounds present. -/
def entry_closed (entry : TimeEntry) : Bool :=
  entry.timeInterval.start.isSome && entry.timeInterval.endT.isSome

/-- The summation loop of _async_get_daily_time (the weekly and per-day
loops are identical): walk the entries, consult the exclusion predicate
with the threaded cache, and add the truncated elapsed seconds of every
non-excluded entry that has both a start and an end. -/
def sum_durations_aux (lookup : ProjectLookup) :
    List TimeEntry → List (String × Option ProjectRef) → ℤ
  | [], _ => 0
  | entry :: rest, cache =>
    let step := should_exclude_time_entry lookup entry cache
    if step.1 then sum_durations_aux lookup rest step.2
    else
      (if entry_closed entry then entry_duration entry else 0) +
        sum_durations_aux lookup rest step.2

/-- Source duration summation over one period's entries, started with the
fresh empty project cache the source allocates per call. -/
def sum_durations (lookup : ProjectLookup) (entries : List TimeEntry) : ℤ :=
  sum_durations_aux lookup entries []

/-- Contribution of one entry to the stateless sum (truncated seconds). -/
def entry_contribution (lookup : ProjectLookup) (entry : TimeEntry) : ℤ :=
  if excluded_of lookup entry then 0
  else if entry_closed entry then entry_duration entry else 0

/-- Contribution of one entry when durations are floored instead of
truncated; the reading of the claim text. -/
def entry_contribution_floor (lookup : ProjectLookup) (entry : TimeEntry) :
    ℤ :=
  if excluded_of lookup entry then 0
  else
    match entry.timeInterval.start, entry.timeInterval.endT with
    | some s, some e => ⌊e - s⌋
    | _, _ => 0

/-- A cache only memoizes the collaborator: every stored binding is what
the lookup returns. The fresh empty cache satisfies this, and the
exclusion predicate preserves it. -/
def cache_consistent (lookup : ProjectLookup)
    (cache : List (String × Option ProjectRef)) : Prop :=
  ∀ pid v, cache.lookup pid = some v → lookup pid = Except.ok v

/-! Aggregation orchestration (source: _async_update_data). -/

/-- The four dictionaries _async_get_weekly_daily_breakdown returns. -/
def Breakdown : Type :=
  List (String × ℚ) × List (String × ℚ) ×
  List (String × String) × List (String × String)

/-- The empty breakdown the caller substitutes on a breakdown failure. -/
def emptyBreakdown : Breakdown := ([], [], [], [])

/-- A task lookup collaborator (project id, task id); error/none/some as
for ProjectLookup. -/
def TaskLookup : Type := String → String → Except Unit (Option TaskRef)

/-- The data bundle _async_update_data returns (the fields derived in
code, excluding the raw breakdown dictionaries which are passed through
unchanged). -/
structure UpdateResult where
  current_timer : Option TimeEntry
  project : Option ProjectRef
  task : Option TaskRef
  user : String
  daily_duration : ℤ
  weekly_duration : ℤ
  daily_total : ℤ
  weekly_total : ℤ
  current_date : String
  week_start : String
  week_end : String
  breakdown : Breakdown
  expected : ExpectedHours
  daily_progress : ProgressMetrics
  daily_total_progress : ProgressMetrics
  weekly_progress : ProgressMetrics
  weekly_total_progress : ProgressMetrics
  weekly_to_date_progress : ProgressMetrics
  weekly_to_date_total_progress : ProgressMetrics

/-- The project-detail fetch for the live timer (source lines after the
totals): performed only when a timer with a truthy projectId is present,
and not shielded by any handler, so a raised lookup error propagates. -/
def fetch_timer_project (lookup : ProjectLookup)
    (current_timer : Option TimeEntry) : Except Unit (Option ProjectRef) :=
  match current_timer with
  | none => Except.ok none
  | some t =>
    match t.projectId with
    | none => Except.ok none
    | some pid => if pid = "" then Except.ok none else lookup pid

/-- The task-detail fetch for the live timer: performed only when a timer
with a truthy taskId is present; the source indexes the timer's
projectId directly (no default), so a timer with a taskId but no
projectId key raises a KeyError that propagates. Unshielded, so a raised
lookup error propagates. -/
def fetch_timer_task (lookupT : TaskLookup)
    (current_timer : Option TimeEntry) : Except Unit (Option TaskRef) :=
  match current_timer with
  | none => Except.ok none
  | some t =>
    match t.taskId with
    | none => Except.ok none
    | some tid =>
      if tid = "" then Except.ok none
      else
        match t.projectId with
        | none => Except.error ()
        | some pid => lookupT pid tid

/-- The live-timer duration block: zero without a timer or a start;
otherwise, unless the timer is excluded (checked against a fresh empty
cache), the truncated seconds from the start to now. -/
def current_timer_duration_of (lookup : ProjectLookup)
    (current_timer : Option TimeEntry) (now : ℚ) : ℤ :=
  match current_timer with
  | none => 0
  | some t =>
    match t.timeInterval.start with
    | none => 0
    | some start_time =>
      if (should_exclude_time_entry lookup t []).1 then 0
      else ratTrunc (now - start_time)

/-- Source _async_update_data. Collaborator outcomes arrive as values:
user is the authenticated-identity fetch (its failure is re-raised, a
hard failure), member_profile is the already-shielded profile fetch
(never raises, hence an Option), timerE is the current-timer fetch
(unshielded), daily and weekly and breakdownE are the period fetches,
each consumed under a handler that substitutes a zero/empty default.
The date enters as the triple (now, now_str, weekday) sampled from one
instant. The result is Except: error () is a hard failure of the whole
aggregation (the UpdateFailed path). -/
def async_update_data (userE : Except Unit String)
    (member_profile : Option SchedulePayload)
    (timerE : Except Unit (Option TimeEntry))
    (dailyE : Except Unit ℤ)
    (weeklyE : Except Unit (ℤ × String × String))
    (breakdownE : Except Unit Breakdown)
    (lookup : ProjectLookup) (lookupT : TaskLookup)
    (now : ℚ) (now_str : String) (weekday : Fin 7) :
    Except Unit UpdateResult :=
  Except.bind userE (fun user_id =>
  Except.bind timerE (fun current_timer =>
  Except.bind (fetch_timer_project lookup current_timer) (fun project_data =>
  Except.bind (fetch_timer_task lookupT current_timer) (fun task_data =>
  let week_start_day :=
    match member_profile with
    | none => ("MONDAY")
    | some p => p.weekStart.getD ("MONDAY")
  let user_schedule := member_profile
  let daily_duration := match dailyE with
    | Except.ok v => v
    | Except.error _ => 0
  let weekly3 := match weeklyE with
    | Except.ok v => v
    | Except.error _ => (0, now_str, now_str)
  let current_timer_duration :=
    current_timer_duration_of lookup current_timer now
  let daily_total := daily_duration + current_timer_duration
  let weekly_total := weekly3.1 + current_timer_duration
  let breakdown := match breakdownE with
    | Except.ok v => v
    | Except.error _ => emptyBreakdown
  let expected := calculate_expected_hours user_schedule weekday week_start_day
  Except.ok
    { current_timer := current_timer
      project := project_data
      task := task_data
      user := user_id
      daily_duration := daily_duration
      weekly_duration := weekly3.1
      daily_total := daily_total
      weekly_total := weekly_total
      current_date := now_str
      week_start := weekly3.2.1
      week_end := weekly3.2.2
      breakdown := breakdown
      expected := expected
      daily_progress :=
        calculate_progress_metrics daily_duration
          expected.daily_expected_seconds
      daily_total_progress :=
        calculate_progress_metrics daily_total
          expected.daily_expected_seconds
      weekly_progress :=
        calculate_progress_metrics weekly3.1
          expected.weekly_expected_seconds
      weekly_total_progress :=
        calculate_progress_metrics weekly_total
          expected.weekly_expected_seconds
      weekly_to_date_progress :=
        calculate_progress_metrics weekly3.1
          expected.weekly_to_date_expected_seconds
      weekly_to_date_total_progress :=
        calculate_progress_metrics weekly_total
          expected.weekly_to_date_expected_seconds }))))

/-! Concrete fixtures used by closed counterexample and witness
statements. -/

/-- A lookup collaborator that always succeeds with no project. -/
def trivialLookup : ProjectLookup := fun _ => Except.ok none

/-- A task lookup collaborator that always succeeds with no task. -/
def trivialTaskLookup : TaskLookup := fun _ _ => Except.ok none

/-- A closed entry whose end precedes its start by half a second. -/
def backwardEntry : TimeEntry :=
  { type := none, projectId := none, taskId := none,
    timeInterval := { start := some (1/2), endT := some 0 } }

/-- A member-capacity payload declaring Monday a working day with a zero
work capacity. -/
def zeroCapMember : SchedulePayload :=
  { workCapacity := some ("PT0H"), workingDays := some [("MONDAY")],
    workWeek := none, daysOfWeek := none, hoursPerDay := none,
    weekStart := none }

/-! Helper lemmas. -/

theorem ratTrunc_eq_floor_of_nonneg (q : ℚ) (h : 0 ≤ q) :
    ratTrunc q = ⌊q⌋ := by
  rw [ratTrunc, Int.tdiv_eq_ediv (Rat.num_nonneg.mpr h) (by positivity),
    ← Rat.floor_def]

theorem rndHalfEven_intCast (n : ℤ) : rndHalfEven (n : ℚ) = n := by
  simp [rndHalfEven]

theorem le_rndHalfEven (m : ℤ) (q : ℚ) (h : (m : ℚ) ≤ q) :
    m ≤ rndHalfEven q := by
  have hfl : m ≤ ⌊q⌋ := Int.le_floor.mpr h
  unfold rndHalfEven
  dsimp only
  split
  · exact hfl
  · split
    · omega
    · split <;> omega

theorem rndHalfEven_gt_half (m : ℤ) (q : ℚ) (h : (m : ℚ) + 1/2 < q) :
    m + 1 ≤ rndHalfEven q := by
  have hmq : (m : ℚ) ≤ q := by linarith
  have hm : m ≤ ⌊q⌋ := Int.le_floor.mpr hmq
  unfold rndHalfEven
  dsimp only
  split
  · next hlt =>
    have hq : q < (⌊q⌋ : ℚ) + 1/2 := by linarith
    have : (m : ℚ) < (⌊q⌋ : ℚ) := by linarith
    have hlt2 : m < ⌊q⌋ := by exact_mod_cast this
    omega
  · split
    · omega
    · next h1 h2 =>
      have hf : q - (⌊q⌋ : ℚ) = 1/2 := le_antisymm (not_lt.mp h2) (not_lt.mp h1)
      have : (m : ℚ) < (⌊q⌋ : ℚ) := by linarith
      have hlt2 : m < ⌊q⌋ := by exact_mod_cast this
      split <;> omega

theorem digit_not_pyWs (c : Char) (h : c.isDigit = true) : isPyWs c = false := by
  revert h
  unfold Char.isDigit isPyWs
  by_cases h1 : c = ' ' <;> by_cases h2 : c = '\t' <;>
    by_cases h3 : c = '\n' <;> by_cases h4 : c = '\r' <;>
    by_cases h5 : c = '\x0b' <;> by_cases h6 : c = '\x0c' <;>
    simp_all <;> subst_vars <;> decide

theorem all_digits_dropWhile_pyWs (l : List Char)
    (h : ∀ c ∈ l, c.isDigit = true) : l.dropWhile isPyWs = l := by
  cases l with
  | nil => rfl
  | cons c rest =>
    rw [List.dropWhile_cons_of_neg]
    simp [digit_not_pyWs c (h c (by simp))]

theorem pyFloat_digits (l : List Char) (hne : l ≠ [])
    (h : ∀ c ∈ l, c.isDigit = true) :
    pyFloat l = some (natOfDigits l : ℚ) := by
  have hrev : ∀ c ∈ l.reverse, c.isDigit = true := by
    intro c hc; exact h c (List.mem_reverse.mp hc)
  unfold pyFloat
  rw [all_digits_dropWhile_pyWs l h, all_digits_dropWhile_pyWs l.reverse hrev,
    List.reverse_reverse]
  cases hl : l with
  | nil => exact absurd hl hne
  | cons c rest =>
    have hc : c.isDigit = true := h c (by rw [hl]; simp)
    have hplus : ¬ c = '+' := by rintro rfl; exact absurd hc (by decide)
    have hminus : ¬ c = '-' := by rintro rfl; exact absurd hc (by decide)
    rw [← hl]
    have hl2 : l.takeWhile Char.isDigit = l := List.takeWhile_eq_self_iff.mpr h
    have hl3 : l.dropWhile Char.isDigit = [] := List.dropWhile_eq_nil_iff.mpr h
    simp only [hl]
    rw [if_neg hplus, if_neg hminus, ← hl]
    unfold pyFloatUnsigned
    rw [hl2, hl3]
    simp [hl, pyFloatExp]

theorem splitOnChar_not_mem (c : Char) (l : List Char) (h : c ∉ l) :
    splitOnChar c l = [l] := by
  induction l with
  | nil => rfl
  | cons x xs ih =>
    have hx : ¬ x = c := fun hh => h (by simp [hh])
    have hxs : c ∉ xs := fun hh => h (by simp [hh])
    rw [splitOnChar, ih hxs]
    simp [hx]

theorem splitOnChar_ne_nil (c : Char) (l : List Char) :
    splitOnChar c l ≠ [] := by
  cases l with
  | nil => simp [splitOnChar]
  | cons x xs =>
    rw [splitOnChar]
    cases hs : splitOnChar c xs with
    | nil => simp
    | cons y ys => by_cases hx : x = c <;> simp [hx]

theorem splitOnChar_append (c : Char) (l r : List Char) (h : c ∉ l) :
    splitOnChar c (l ++ c :: r) = l :: splitOnChar c r := by
  induction l with
  | nil =>
    rw [List.nil_append, splitOnChar]
    cases hs : splitOnChar c r with
    | nil => exact absurd hs (splitOnChar_ne_nil c r)
    | cons y ys => simp [← hs]
  | cons x xs ih =>
    have hx : ¬ x = c := fun hh => h (by simp [hh])
    have hxs : c ∉ xs := fun hh => h (by simp [hh])
    rw [List.cons_append, splitOnChar, ih hxs]
    simp [hx]

theorem not_mem_of_all_digits (c : Char) (l : List Char)
    (hc : c.isDigit = false) (h : ∀ x ∈ l, x.isDigit = true) : c ∉ l := by
  intro hmem
  rw [h c hmem] at hc
  exact absurd hc (by decide)

/-! Claim theorems. -/

/-- C2: for every pair (loggedSeconds, expectedSeconds), when
expectedSeconds is not positive the progress metrics are all zero with
the 00:00 rendering; otherwise the percent is round(logged/expected*100,
1), the remaining seconds are max 0 (expected - logged) and never
negative, the remaining hours are round(remaining/3600, 2), and the
rendering is the HH:MM string obtained by floor-dividing the remaining
seconds into hours and minutes. -/
theorem calculate_progress_metrics_spec (l e : ℤ) :
    (e ≤ 0 → calculate_progress_metrics l e =
      { progress_percent := 0, remaining_seconds := 0, remaining_hours := 0,
        remaining_formatted := ("00:00") }) ∧
    (0 < e →
      (calculate_progress_metrics l e).progress_percent =
        pyRound ((l : ℚ) / (e : ℚ) * 100) 1 ∧
      (calculate_progress_metrics l e).remaining_seconds = max 0 (e - l) ∧
      0 ≤ (calculate_progress_metrics l e).remaining_seconds ∧
      (calculate_progress_metrics l e).remaining_hours =
        pyRound (((max 0 (e - l) : ℤ) : ℚ) / 3600) 2 ∧
      (calculate_progress_metrics l e).remaining_formatted =
        pad2 ((max 0 (e - l)).toNat / 3600) ++ (":") ++
          pad2 ((max 0 (e - l)).toNat % 3600 / 60)) := by
  constructor
  · intro h
    rw [calculate_progress_metrics, if_neg (by omega)]
  · intro h
    rw [calculate_progress_metrics, if_pos h]
    refine ⟨rfl, rfl, ?_, rfl, rfl⟩
    exact le_max_left 0 (e - l)

/-- Witness for C2 at concrete inputs: a nonpositive expectation yields
the all-zero record, and one logged hour against two expected leaves one
hour remaining. -/
theorem calculate_progress_metrics_spec_witness :
    calculate_progress_metrics 5 0 =
      { progress_percent := 0, remaining_seconds := 0, remaining_hours := 0,
        remaining_formatted := ("00:00") } ∧
    (calculate_progress_metrics 3600 7200).remaining_seconds =
      max 0 (7200 - 3600) :=
  ⟨(calculate_progress_metrics_spec 5 0).1 (by norm_num),
   (((calculate_progress_metrics_spec 3600 7200).2 (by norm_num)).2).1⟩

/-- C10 counterexample: with expected 10000 and logged 10004 the logged
seconds strictly exceed the expected seconds, yet the rounded percentage
is exactly 100.0, not strictly greater. -/
theorem progress_percent_not_strictly_above_100 :
    (10000 : ℤ) < 10004 ∧
    (calculate_progress_metrics 10004 10000).progress_percent = 100 := by
  refine ⟨by norm_num, ?_⟩
  rw [calculate_progress_metrics, if_pos (by norm_num)]
  show pyRound ((10004 : ℚ) / 10000 * 100) 1 = 100
  have h1 : (10004 : ℚ) / 10000 * 100 * 10 ^ 1 = 5002 / 5 := by norm_num
  have h2 : rndHalfEven (5002 / 5) = 1000 := by
    have hfl : ⌊(5002 / 5 : ℚ)⌋ = 1000 := by
      rw [Int.floor_eq_iff]
      constructor <;> norm_num
    unfold rndHalfEven
    dsimp only
    rw [hfl, if_pos (by norm_num)]
  rw [pyRound, h1, h2]
  norm_num

/-- C10 amended: the percentage is not capped at 100. When the logged
seconds exceed a positive expectation the rounded percentage is at least
100.0 (strictly greater as soon as the exact percentage exceeds 100.05,
i.e. 2000*logged > 2001*expected), doubling the expectation yields
exactly 200.0, and the remaining figures collapse to zero and 00:00. -/
theorem progress_percent_uncapped (l e : ℤ) (he : 0 < e) (hl : e < l) :
    100 ≤ (calculate_progress_metrics l e).progress_percent ∧
    (2001 * e < 2000 * l →
      100 < (calculate_progress_metrics l e).progress_percent) ∧
    (calculate_progress_metrics l e).remaining_seconds = 0 ∧
    (calculate_progress_metrics l e).remaining_formatted = ("00:00") ∧
    (calculate_progress_metrics (2 * e) e).progress_percent = 200 := by
  have heQ : (0 : ℚ) < (e : ℚ) := by exact_mod_cast he
  have hlQ : (e : ℚ) < (l : ℚ) := by exact_mod_cast hl
  have hrem : max 0 (e - l) = 0 := by omega
  rw [calculate_progress_metrics, if_pos he]
  refine ⟨?_, ?_, hrem, ?_, ?_⟩
  · show (100 : ℚ) ≤ pyRound ((l : ℚ) / (e : ℚ) * 100) 1
    have harg : (1000 : ℚ) ≤ (l : ℚ) / (e : ℚ) * 100 * 10 ^ 1 := by
      rw [div_mul_eq_mul_div, div_mul_eq_mul_div, le_div_iff heQ]
      push_cast
      nlinarith
    have := le_rndHalfEven 1000 ((l : ℚ) / (e : ℚ) * 100 * 10 ^ 1) (by
      exact_mod_cast harg)
    rw [pyRound]
    rw [le_div_iff (by norm_num)]
    calc (100 : ℚ) * 10 ^ 1 = ((1000 : ℤ) : ℚ) := by norm_num
    _ ≤ (rndHalfEven ((l : ℚ) / (e : ℚ) * 100 * 10 ^ 1) : ℚ) := by
        exact_mod_cast this
  · intro hstrict
    show (100 : ℚ) < pyRound ((l : ℚ) / (e : ℚ) * 100) 1
    have harg : (1000 : ℚ) + 1/2 < (l : ℚ) / (e : ℚ) * 100 * 10 ^ 1 := by
      rw [div_mul_eq_mul_div, div_mul_eq_mul_div, lt_div_iff heQ]
      have : (2001 : ℚ) * (e : ℚ) < 2000 * (l : ℚ) := by exact_mod_cast hstrict
      nlinarith
    have := rndHalfEven_gt_half 1000 ((l : ℚ) / (e : ℚ) * 100 * 10 ^ 1) (by
      push_cast
      linarith)
    rw [pyRound]
    rw [lt_div_iff (by norm_num)]
    calc (100 : ℚ) * 10 ^ 1 = 1000 := by norm_num
    _ < ((1000 : ℤ) + 1 : ℚ) := by norm_num
    _ ≤ (rndHalfEven ((l : ℚ) / (e : ℚ) * 100 * 10 ^ 1) : ℚ) := by
        exact_mod_cast this
  · show pad2 ((max 0 (e - l)).toNat / 3600) ++ (":") ++
        pad2 ((max 0 (e - l)).toNat % 3600 / 60) = ("00:00")
    rw [hrem]
    rfl
  · rw [calculate_progress_metrics, if_pos he]
    show pyRound (((2 * e : ℤ) : ℚ) / (e : ℚ) * 100) 1 = 200
    have h2 : ((2 * e : ℤ) : ℚ) / (e : ℚ) * 100 = 200 := by
      push_cast
      field_simp
      ring
    rw [h2]
    have h3 : (200 : ℚ) * 10 ^ 1 = ((2000 : ℤ) : ℚ) := by norm_num
    rw [pyRound, h3, rndHalfEven_intCast]
    norm_num

/-- Witness for C10 amended at logged 7201 seconds against an expectation
of 3600: the percentage strictly exceeds 100 and nothing remains. -/
theorem progress_percent_uncapped_witness :
    100 < (calculate_progress_metrics 7201 3600).progress_percent ∧
    (calculate_progress_metrics 7201 3600).remaining_seconds = 0 ∧
    (calculate_progress_metrics 7201 3600).remaining_formatted = ("00:00") :=
  ⟨((progress_percent_uncapped 7201 3600 (by norm_num) (by norm_num)).2).1
      (by norm_num),
   (((progress_percent_uncapped 7201 3600 (by norm_num) (by norm_num)).2).2).1,
   ((((progress_percent_uncapped 7201 3600 (by norm_num)
      (by norm_num)).2).2).2).1⟩

/-- C9: with no schedule payload the default schedule is Mon-Fri at 8
hours per day: for every weekday and week-start setting the weekly
expectation is 40 hours (144000 seconds) and the daily expectation is 8
hours on Monday through Friday (weekday 0-4) and zero on Saturday and
Sunday; in particular a Saturday has daily expectation zero. -/
theorem default_schedule_spec (wd : Fin 7) (wsd : String) :
    (calculate_expected_hours none wd wsd).weekly_expected_seconds =
      5 * 8 * 3600 ∧
    (calculate_expected_hours none wd wsd).weekly_expected_hours = 40 ∧
    (calculate_expected_hours none wd wsd).daily_expected_seconds =
      (if (wd : ℕ) < 5 then 8 * 3600 else 0) ∧
    (calculate_expected_hours none wd wsd).daily_expected_hours =
      (if (wd : ℕ) < 5 then 8 else 0) := by
  fin_cases wd <;>
    simp [calculate_expected_hours, default_expected_hours, weekdays5,
      standard_order]

/-- C1: evaluation at the failing input. With no schedule payload (the
default Mon-Fri schedule), week start SATURDAY and the current day a
Sunday, the source's weekly-to-date figure is min(days+1, 5) * 8h =
57600 seconds (16 h), although none of the first days_since+1 = 2
ordered weekdays (Sat, Sun) is a working day, so the sum of their
capacities is zero; the remaining figure (a genuine scan, 40 h) plus the
to-date figure then exceeds the 40-hour weekly figure. -/
theorem weekly_to_date_default_saturday_divergence :
    ExpectedHours.weekly_to_date_expected_seconds
      (calculate_expected_hours none 6 ("SATURDAY")) = 57600 ∧
    calculate_days_since_week_start 6 ("SATURDAY") = 1 ∧
    ((get_week_day_order ("SATURDAY")).take
        (calculate_days_since_week_start 6 ("SATURDAY") + 1)).filter
        (fun d => weekdays5.contains d) = [] ∧
    ExpectedHours.weekly_remaining_expected_seconds
      (calculate_expected_hours none 6 ("SATURDAY")) = 144000 ∧
    ExpectedHours.weekly_expected_seconds
      (calculate_expected_hours none 6 ("SATURDAY")) = 144000 := by
  refine ⟨?_, ?_, ?_, ?_, ?_⟩ <;> decide

/-- C7: for every week-start string (the three recognized values and any
unrecognized value, which falls back to the Monday offset) and every
weekday, days-since-week-start equals (weekday - offset) mod 7, lies in
0..6, and indexing the ordered weekday list at it recovers the day's own
label. -/
theorem days_since_week_start_spec (wsd : String) (wd : Fin 7) :
    (calculate_days_since_week_start wd wsd : ℤ) =
      ((wd : ℕ) - (get_week_start_offset wsd : ℤ)) % 7 ∧
    calculate_days_since_week_start wd wsd ≤ 6 ∧
    (get_week_day_order wsd).getD
        (calculate_days_since_week_start wd wsd) ("") =
      standard_order.getD (wd : ℕ) ("") := by
  have hoff : get_week_start_offset wsd = 0 ∨ get_week_start_offset wsd = 6 ∨
      get_week_start_offset wsd = 5 := by
    unfold get_week_start_offset
    split
    · exact Or.inl rfl
    · split
      · exact Or.inr (Or.inl rfl)
      · split
        · exact Or.inr (Or.inr rfl)
        · exact Or.inl rfl
  unfold calculate_days_since_week_start get_week_day_order
  rcases hoff with h | h | h <;> rw [h] <;> fin_cases wd <;> decide

theorem pyFloat_digits_val (l : List Char) (n : ℕ) (hne : l ≠ [])
    (h : ∀ c ∈ l, c.isDigit = true) (hv : natOfDigits l = n) :
    pyFloat l = some (n : ℚ) := by
  rw [pyFloat_digits l hne h, hv]

/-- C3 counterexample: the string PT1H1M1S is outside the grammar (PT,
optional integer H field, optional integer M field, nothing else), yet
the parser returns 61/60 hours, not 0.0: the split-based field scan never
inspects what follows the minutes field. -/
theorem parse_iso_duration_counterexample :
    parse_iso_duration ("PT1H1M1S") = 61/60 ∧ (61/60 : ℚ) ≠ 0 := by
  constructor
  · show parse_iso_duration_core
      [('1'), ('H'), ('1'), ('M'), ('1'), ('S')] = 61/60
    have e1 : (splitOnChar 'H'
        [('1'), ('H'), ('1'), ('M'), ('1'), ('S')]).getD 0 [] =
        [('1')] := by decide
    have e2 : (splitOnChar 'H'
        [('1'), ('H'), ('1'), ('M'), ('1'), ('S')]).getD 1 [] =
        [('1'), ('M'), ('1'), ('S')] := by decide
    have e4 : (splitOnChar 'M' [('1'), ('M'), ('1'), ('S')]).getD 0 [] =
        [('1')] := by decide
    have e3 : pyFloat [('1')] = some ((1 : ℕ) : ℚ) :=
      pyFloat_digits_val [('1')] 1 (by decide) (by decide) (by decide)
    rw [parse_iso_duration_core, if_pos (by decide), e1, e2, e3]
    dsimp only
    rw [if_pos (by decide), e4, e3]
    dsimp only
    norm_num
  · norm_num

theorem parse_core_hours_minutes (hs ms : List Char) (h1 : hs ≠ [])
    (h2 : ms ≠ []) (hd1 : ∀ c ∈ hs, c.isDigit = true)
    (hd2 : ∀ c ∈ ms, c.isDigit = true) :
    parse_iso_duration_core (hs ++ 'H' :: (ms ++ [('M')])) =
      (natOfDigits hs : ℚ) + (natOfDigits ms : ℚ) / 60 := by
  have hHhs : 'H' ∉ hs := not_mem_of_all_digits 'H' hs (by decide) hd1
  have hHms : 'H' ∉ ms := not_mem_of_all_digits 'H' ms (by decide) hd2
  have hMms : 'M' ∉ ms := not_mem_of_all_digits 'M' ms (by decide) hd2
  have hHtail : 'H' ∉ ms ++ [('M')] := by
    simp only [List.mem_append, List.mem_singleton]
    rintro (h | h)
    · exact hHms h
    · exact absurd h (by decide)
  have e1 : splitOnChar 'H' (hs ++ 'H' :: (ms ++ [('M')])) =
      [hs, ms ++ [('M')]] := by
    rw [splitOnChar_append 'H' hs _ hHhs, splitOnChar_not_mem 'H' _ hHtail]
  have e2 : splitOnChar 'M' (ms ++ [('M')]) = [ms, []] := by
    have h3 : ms ++ [('M')] = ms ++ 'M' :: ([] : List Char) := rfl
    rw [h3, splitOnChar_append 'M' ms [] hMms]
    rfl
  rw [parse_iso_duration_core, if_pos (by simp), e1]
  simp only [List.getD_cons_zero, List.getD_cons_succ]
  rw [pyFloat_digits hs h1 hd1]
  dsimp only
  rw [if_pos (by simp), e2]
  simp only [List.getD_cons_zero]
  rw [pyFloat_digits ms h2 hd2]

theorem parse_core_hours_only (hs : List Char) (h1 : hs ≠ [])
    (hd1 : ∀ c ∈ hs, c.isDigit = true) :
    parse_iso_duration_core (hs ++ [('H')]) = (natOfDigits hs : ℚ) := by
  have hHhs : 'H' ∉ hs := not_mem_of_all_digits 'H' hs (by decide) hd1
  have e1 : splitOnChar 'H' (hs ++ [('H')]) = [hs, []] := by
    have h3 : hs ++ [('H')] = hs ++ 'H' :: ([] : List Char) := rfl
    rw [h3, splitOnChar_append 'H' hs [] hHhs]
    rfl
  rw [parse_iso_duration_core, if_pos (by simp), e1]
  simp only [List.getD_cons_zero, List.getD_cons_succ]
  rw [pyFloat_digits hs h1 hd1]
  dsimp only
  rw [if_neg (by simp)]
  norm_num

theorem parse_core_minutes_only (ms : List Char) (h2 : ms ≠ [])
    (hd2 : ∀ c ∈ ms, c.isDigit = true) :
    parse_iso_duration_core (ms ++ [('M')]) = (natOfDigits ms : ℚ) / 60 := by
  have hHms : 'H' ∉ ms := not_mem_of_all_digits 'H' ms (by decide) hd2
  have hMms : 'M' ∉ ms := not_mem_of_all_digits 'M' ms (by decide) hd2
  have hHtail : 'H' ∉ ms ++ [('M')] := by
    simp only [List.mem_append, List.mem_singleton]
    rintro (h | h)
    · exact hHms h
    · exact absurd h (by decide)
  have e2 : splitOnChar 'M' (ms ++ [('M')]) = [ms, []] := by
    have h3 : ms ++ [('M')] = ms ++ 'M' :: ([] : List Char) := rfl
    rw [h3, splitOnChar_append 'M' ms [] hMms]
    rfl
  rw [parse_iso_duration_core, if_neg hHtail, if_pos (by simp), e2]
  simp only [List.getD_cons_zero]
  rw [pyFloat_digits ms h2 hd2]
  dsimp only
  rw [zero_add]

/-- C3 amended: parsing PT6H30M yields 6.5 hours, garbage yields 0.0,
PT0H yields 0.0 and bare PT yields 0.0; every string of the grammar PT
followed by an optional integer-H field and then an optional integer-M
field parses to hours + minutes/60; and every string that does not start
with PT parses to 0.0 (the original claim that every string outside the
grammar parses to 0.0 is refuted separately: trailing material after the
minutes field, such as a seconds field, is ignored rather than
rejected). -/
theorem parse_iso_duration_spec :
    parse_iso_duration ("PT6H30M") = 13/2 ∧
    parse_iso_duration ("garbage") = 0 ∧
    parse_iso_duration ("PT0H") = 0 ∧
    parse_iso_duration ("PT") = 0 ∧
    (∀ s : String, (∀ rest : List Char, s.data ≠ 'P' :: 'T' :: rest) →
      parse_iso_duration s = 0) ∧
    (∀ hs ms : List Char, hs ≠ [] → ms ≠ [] →
      (∀ c ∈ hs, c.isDigit = true) → (∀ c ∈ ms, c.isDigit = true) →
      parse_iso_duration ⟨'P' :: 'T' :: (hs ++ 'H' :: (ms ++ [('M')]))⟩ =
        (natOfDigits hs : ℚ) + (natOfDigits ms : ℚ) / 60 ∧
      parse_iso_duration ⟨'P' :: 'T' :: (hs ++ [('H')])⟩ =
        (natOfDigits hs : ℚ) ∧
      parse_iso_duration ⟨'P' :: 'T' :: (ms ++ [('M')])⟩ =
        (natOfDigits ms : ℚ) / 60) := by
  refine ⟨?_, ?_, ?_, ?_, ?_, ?_⟩
  · show parse_iso_duration_core
      [('6'), ('H'), ('3'), ('0'), ('M')] = 13/2
    have h6 : ([('6')] : List Char) ++ 'H' :: ([('3'), ('0')] ++ [('M')]) =
        [('6'), ('H'), ('3'), ('0'), ('M')] := rfl
    rw [← h6, parse_core_hours_minutes [('6')] [('3'), ('0')]
      (by decide) (by decide) (by decide) (by decide)]
    have hv1 : natOfDigits [('6')] = 6 := by decide
    have hv2 : natOfDigits [('3'), ('0')] = 30 := by decide
    rw [hv1, hv2]
    norm_num
  · rfl
  · show parse_iso_duration_core [('0'), ('H')] = 0
    have h0 : ([('0')] : List Char) ++ [('H')] = [('0'), ('H')] := rfl
    rw [← h0, parse_core_hours_only [('0')] (by decide) (by decide)]
    have hv : natOfDigits [('0')] = 0 := by decide
    rw [hv]
    norm_num
  · show parse_iso_duration_core [] = 0
    rw [parse_iso_duration_core, if_neg (by simp), if_neg (by simp)]
    norm_num
  · intro s hns
    unfold parse_iso_duration
    rcases hd : s.data with _ | ⟨c1, _ | ⟨c2, rest⟩⟩
    · rfl
    · rfl
    · dsimp only
      rw [if_neg]
      rintro ⟨rfl, rfl⟩
      exact hns rest hd
  · intro hs ms h1 h2 hd1 hd2
    refine ⟨?_, ?_, ?_⟩
    · show parse_iso_duration_core (hs ++ 'H' :: (ms ++ [('M')])) = _
      exact parse_core_hours_minutes hs ms h1 h2 hd1 hd2
    · show parse_iso_duration_core (hs ++ [('H')]) = _
      exact parse_core_hours_only hs h1 hd1
    · show parse_iso_duration_core (ms ++ [('M')]) = _
      exact parse_core_minutes_only ms h2 hd2

/-- Witness for C3 amended: a string not starting with PT parses to zero,
and the grammar instance PT2H5M parses to 2 + 5/60 hours. -/
theorem parse_iso_duration_spec_witness :
    parse_iso_duration ("zzz") = 0 ∧
    parse_iso_duration
        ⟨'P' :: 'T' :: ([('2')] ++ 'H' :: ([('5')] ++ [('M')]))⟩ =
      (natOfDigits [('2')] : ℚ) + (natOfDigits [('5')] : ℚ) / 60 :=
  ⟨(parse_iso_duration_spec).2.2.2.2.1 ("zzz")
      (by intro rest h; simp at h),
   ((parse_iso_duration_spec).2.2.2.2.2 [('2')] [('5')]
      (by decide) (by decide) (by decide) (by decide)).1⟩

/-- C4: the exclusion predicate returns true for BREAK-typed entries
without touching the cache; for an entry with no (or empty, hence falsy)
projectId it returns false; otherwise it resolves the project through
the cache when the cache holds it (cache unchanged), else through the
lookup collaborator, returning true exactly when the resolved project's
name lower-cases to breaks, caching a fetched result, and converting a
raised lookup failure or an absent project into false (fail open) with
the cache unchanged. -/
theorem should_exclude_time_entry_spec (lookup : ProjectLookup)
    (entry : TimeEntry) (cache : List (String × Option ProjectRef)) :
    (entry.type = some ("BREAK") →
      should_exclude_time_entry lookup entry cache = (true, cache)) ∧
    (entry.type ≠ some ("BREAK") →
      (entry.projectId = none ∨ entry.projectId = some ("")) →
      should_exclude_time_entry lookup entry cache = (false, cache)) ∧
    (∀ pid, entry.type ≠ some ("BREAK") → entry.projectId = some pid →
      pid ≠ "" →
      (∀ v, cache ≠ [] → cache.lookup pid = some v →
        should_exclude_time_entry lookup entry cache =
          (project_is_breaks v, cache)) ∧
      ((cache = [] ∨ cache.lookup pid = none) →
        (lookup pid = Except.error () →
          should_exclude_time_entry lookup entry cache = (false, cache)) ∧
        (∀ pd, lookup pid = Except.ok pd →
          should_exclude_time_entry lookup entry cache =
            (project_is_breaks pd, (pid, pd) :: cache)))) := by
  refine ⟨?_, ?_, ?_⟩
  · intro h
    rw [should_exclude_time_entry, if_pos h]
  · intro h hp
    rcases hp with hp | hp <;>
      rw [should_exclude_time_entry, if_neg h, hp] <;> simp
  · intro pid h hp hne
    constructor
    · intro v hc hv
      rw [should_exclude_time_entry, if_neg h, hp]
      dsimp only
      rw [if_neg hne, if_pos hc, hv]
    · intro hmiss
      have hnone : (if cache ≠ [] then cache.lookup pid else none) = none := by
        rcases hmiss with hmiss | hmiss
        · rw [hmiss]
          simp
        · split <;> simp [hmiss]
      constructor
      · intro herr
        rw [should_exclude_time_entry, if_neg h, hp]
        dsimp only
        rw [if_neg hne, hnone, herr]
      · intro pd hok
        rw [should_exclude_time_entry, if_neg h, hp]
        dsimp only
        rw [if_neg hne, hnone, hok]

/-- Witness for C4 at concrete inputs: a BREAK entry is excluded, an
entry with no project is not, and a cache miss resolved to a project
named Breaks is excluded with the cache populated. -/
theorem should_exclude_time_entry_spec_witness :
    should_exclude_time_entry trivialLookup
      { type := some ("BREAK"), projectId := none, taskId := none,
        timeInterval := { start := none, endT := none } } [] = (true, []) ∧
    should_exclude_time_entry trivialLookup
      { type := none, projectId := none, taskId := none,
        timeInterval := { start := none, endT := none } } [] = (false, []) ∧
    should_exclude_time_entry
      (fun _ => Except.ok (some { name := some ("Breaks") }))
      { type := none, projectId := some ("p1"), taskId := none,
        timeInterval := { start := none, endT := none } } [] =
      (true, [(("p1"), some { name := some ("Breaks") })]) := by
  refine ⟨?_, ?_, ?_⟩
  · exact (should_exclude_time_entry_spec trivialLookup
      { type := some ("BREAK"), projectId := none, taskId := none,
        timeInterval := { start := none, endT := none } } []).1 rfl
  · exact (should_exclude_time_entry_spec trivialLookup
      { type := none, projectId := none, taskId := none,
        timeInterval := { start := none, endT := none } } []).2.1
      (by simp) (Or.inl rfl)
  · have h := (((should_exclude_time_entry_spec
      (fun _ => Except.ok (some { name := some ("Breaks") }))
      { type := none, projectId := some ("p1"), taskId := none,
        timeInterval := { start := none, endT := none } } []).2.2
      ("p1") (by simp) rfl (by simp)).2 (Or.inl rfl)).2
      (some { name := some ("Breaks") }) rfl
    rw [h]
    have hb : project_is_breaks (some { name := some ("Breaks") }) = true := by
      rw [project_is_breaks]
      decide
    rw [hb]


theorem should_exclude_consistent (lookup : ProjectLookup)
    (entry : TimeEntry) (cache : List (String × Option ProjectRef))
    (h : cache_consistent lookup cache) :
    (should_exclude_time_entry lookup entry cache).1 =
      excluded_of lookup entry ∧
    cache_consistent lookup (should_exclude_time_entry lookup entry cache).2 := by
  rw [should_exclude_time_entry, excluded_of]
  by_cases ht : entry.type = some ("BREAK")
  · rw [if_pos ht, if_pos ht]
    exact ⟨rfl, h⟩
  · rw [if_neg ht, if_neg ht]
    rcases hp : entry.projectId with _ | pid
    · exact ⟨rfl, h⟩
    · dsimp only
      by_cases hne : pid = ""
      · rw [if_pos hne, if_pos hne]
        exact ⟨rfl, h⟩
      · rw [if_neg hne, if_neg hne]
        rcases hc : (if cache ≠ [] then cache.lookup pid else none) with _ | v
        · rcases hl : lookup pid with e | pd
          · exact ⟨rfl, h⟩
          · refine ⟨rfl, ?_⟩
            intro p w hw
            rw [List.lookup_cons] at hw
            by_cases hpw : p = pid
            · subst hpw
              simp only [beq_self_eq_true] at hw
              cases hw
              exact hl
            · have hf : (p == pid) = false := beq_eq_false_iff_ne.mpr hpw
              simp only [hf] at hw
              exact h p w hw
        · have hcl : cache.lookup pid = some v := by
            by_cases hcn : cache = []
            · rw [hcn] at hc
              simp at hc
            · rw [if_pos hcn] at hc
              exact hc
          rw [h pid v hcl]
          exact ⟨rfl, h⟩

theorem sum_durations_aux_eq (lookup : ProjectLookup)
    (l : List TimeEntry) :
    ∀ cache : List (String × Option ProjectRef),
      cache_consistent lookup cache →
      sum_durations_aux lookup l cache =
        (l.map (entry_contribution lookup)).sum := by
  induction l with
  | nil => intro cache hc; rfl
  | cons e rest ih =>
    intro cache hc
    obtain ⟨h1, h2⟩ := should_exclude_consistent lookup e cache hc
    rw [sum_durations_aux]
    rw [h1, ih _ h2, List.map_cons, List.sum_cons, entry_contribution]
    by_cases hexc : excluded_of lookup e
    · rw [if_pos hexc, if_pos hexc]
      omega
    · rw [if_neg hexc, if_neg hexc]

/-- C5 amended: the duration summation equals the sum, over the entries
in order, of each entry's stateless contribution: zero when the entry is
excluded or lacks a bound, otherwise int-truncated (end - start) seconds
-- which agrees with floor(end - start) whenever no entry ends before it
starts (the original floor reading fails only for an entry whose end
precedes its start by a fractional amount, refuted separately). An entry
with only a start contributes nothing, and the sum is invariant under
permutation of the entries. -/
theorem sum_durations_spec (lookup : ProjectLookup)
    (l1 l2 : List TimeEntry) (hp : l1.Perm l2) :
    sum_durations lookup l1 = (l1.map (entry_contribution lookup)).sum ∧
    sum_durations lookup l1 = sum_durations lookup l2 ∧
    ((∀ e ∈ l1, ∀ s t : ℚ, e.timeInterval.start = some s →
        e.timeInterval.endT = some t → s ≤ t) →
      sum_durations lookup l1 =
        (l1.map (entry_contribution_floor lookup)).sum) := by
  have hx : ∀ m : List TimeEntry, sum_durations lookup m =
      (m.map (entry_contribution lookup)).sum := by
    intro m
    exact sum_durations_aux_eq lookup m [] (by intro p v hv; simp at hv)
  refine ⟨hx l1, ?_, ?_⟩
  · rw [hx l1, hx l2]
    exact List.Perm.sum_eq (hp.map (entry_contribution lookup))
  · intro hord
    rw [hx l1]
    congr 1
    apply List.map_congr_left
    intro e he
    rw [entry_contribution, entry_contribution_floor]
    by_cases hexc : excluded_of lookup e
    · rw [if_pos hexc, if_pos hexc]
    · rw [if_neg hexc, if_neg hexc, entry_closed, entry_duration]
      rcases hs : e.timeInterval.start with _ | s <;>
        rcases ht : e.timeInterval.endT with _ | t <;>
        simp [hs, ht]
      exact ratTrunc_eq_floor_of_nonneg (t - s)
        (by linarith [hord e he s t hs ht])

/-- C5 counterexample: an entry that ends half a second before it starts
contributes int-truncated -0.5 = 0 seconds, while the claimed
floor(end - start) is -1; the two summation readings disagree. -/
theorem sum_durations_floor_counterexample :
    sum_durations trivialLookup [backwardEntry] = 0 ∧
    ([backwardEntry].map (entry_contribution_floor trivialLookup)).sum =
      -1 := by
  constructor
  · rw [sum_durations, sum_durations_aux]
    rw [should_exclude_time_entry]
    norm_num [backwardEntry, trivialLookup, entry_closed, entry_duration,
      sum_durations_aux, ratTrunc]
    intro _
    decide
  · rw [List.map_cons, List.map_nil, List.sum_cons, List.sum_nil,
      entry_contribution_floor]
    rw [if_neg (by rw [excluded_of]; simp [backwardEntry])]
    have hb : backwardEntry.timeInterval.start = some (1/2) := rfl
    have he : backwardEntry.timeInterval.endT = some 0 := rfl
    rw [hb, he]
    dsimp only
    have hv : ⌊(0 : ℚ) - 1/2⌋ = -1 := by
      rw [show (0 : ℚ) - 1/2 = -(1/2) by norm_num]
      rw [show (-1 : ℤ) = -(1 : ℤ) by norm_num]
      rw [Int.floor_eq_iff]
      constructor <;> norm_num
    rw [hv]
    ring

/-- Witness for C5 amended at a concrete two-entry list and its
reversal: a one-hour entry and a BREAK entry sum to 3600 seconds in
either order, and the floor reading agrees since both entries are
forward-ordered. -/
theorem sum_durations_spec_witness :
    sum_durations trivialLookup
      [{ type := none, projectId := none, taskId := none,
         timeInterval := { start := some 0, endT := some 3600 } },
       { type := some ("BREAK"), projectId := none, taskId := none,
         timeInterval := { start := some 0, endT := some 60 } }] =
      sum_durations trivialLookup
      [{ type := some ("BREAK"), projectId := none, taskId := none,
         timeInterval := { start := some 0, endT := some 60 } },
       { type := none, projectId := none, taskId := none,
         timeInterval := { start := some 0, endT := some 3600 } }] :=
  (sum_durations_spec trivialLookup _ _ (List.Perm.swap _ _ [])).2.1

theorem buildWorkWeek_not_mem (ww : List (String × WWDay))
    (pairs : List (String × String)) (short : String)
    (h : short ∉ pairs.map Prod.snd) :
    (buildWorkWeek ww pairs).1.contains short = false ∧
    (buildWorkWeek ww pairs).2.lookup short = none := by
  induction pairs with
  | nil => exact ⟨rfl, rfl⟩
  | cons p rest ih =>
    obtain ⟨api, s⟩ := p
    have hs : ¬ short = s := by
      intro hh
      exact h (by rw [List.map_cons, hh]; exact List.mem_cons_self _ _)
    have hrest : short ∉ rest.map Prod.snd := by
      intro hh
      exact h (by rw [List.map_cons]; exact List.mem_cons_of_mem _ hh)
    obtain ⟨ih1, ih2⟩ := ih hrest
    rw [buildWorkWeek]
    by_cases hwd :
        ((ww.lookup api).getD ⟨none, none⟩).isWorkDay.getD false = true
    · rw [if_pos hwd]
      constructor
      · rw [List.contains_cons, ih1, beq_eq_false_iff_ne.mpr hs]
        rfl
      · rw [List.lookup_cons, beq_eq_false_iff_ne.mpr hs, ih2]
    · rw [if_neg hwd]
      exact ⟨ih1, ih2⟩

theorem buildWorkWeek_mem (ww : List (String × WWDay))
    (pairs : List (String × String)) (api short : String)
    (hmem : (api, short) ∈ pairs) (hnd : (pairs.map Prod.snd).Nodup) :
    (buildWorkWeek ww pairs).1.contains short =
      ((ww.lookup api).getD ⟨none, none⟩).isWorkDay.getD false ∧
    (buildWorkWeek ww pairs).2.lookup short =
      (if ((ww.lookup api).getD ⟨none, none⟩).isWorkDay.getD false = true then
        some (parse_iso_duration
          (((ww.lookup api).getD ⟨none, none⟩).duration.getD ("PT0H")))
      else none) := by
  induction pairs with
  | nil => exact absurd hmem (List.not_mem_nil _)
  | cons p rest ih =>
    obtain ⟨a, s⟩ := p
    rw [List.map_cons, List.nodup_cons] at hnd
    rcases List.mem_cons.mp hmem with hh | hh
    · rw [Prod.mk.injEq] at hh
      obtain ⟨ha, hs⟩ := hh
      subst ha
      subst hs
      obtain ⟨hn1, hn2⟩ := buildWorkWeek_not_mem ww rest short hnd.1
      rw [buildWorkWeek]
      by_cases hwd :
          ((ww.lookup api).getD ⟨none, none⟩).isWorkDay.getD false = true
      · rw [if_pos hwd, hwd]
        constructor
        · rw [List.contains_cons, beq_self_eq_true]
          rfl
        · rw [List.lookup_cons, beq_self_eq_true, if_pos rfl]
      · rw [if_neg hwd]
        constructor
        · rw [hn1]
          exact (Bool.eq_false_iff.mpr hwd).symm
        · rw [hn2, if_neg hwd]
    · have hsmem : short ∈ rest.map Prod.snd :=
        List.mem_map_of_mem Prod.snd hh
      have hsne : ¬ short = s := by
        intro hq
        rw [hq] at hsmem
        exact hnd.1 hsmem
      obtain ⟨ih1, ih2⟩ := ih hh hnd.2
      rw [buildWorkWeek]
      by_cases hwd :
          ((ww.lookup a).getD ⟨none, none⟩).isWorkDay.getD false = true
      · rw [if_pos hwd]
        constructor
        · rw [List.contains_cons, beq_eq_false_iff_ne.mpr hsne, ih1]
          rfl
        · rw [List.lookup_cons, beq_eq_false_iff_ne.mpr hsne, ih2]
      · rw [if_neg hwd]
        exact ⟨ih1, ih2⟩

theorem parse_pt0h : parse_iso_duration ("PT0H") = 0 := by
  show parse_iso_duration_core [('0'), ('H')] = 0
  have h0 : ([('0')] : List Char) ++ [('H')] = [('0'), ('H')] := rfl
  rw [← h0, parse_core_hours_only [('0')] (by decide) (by decide)]
  have hv : natOfDigits [('0')] = 0 := by decide
  rw [hv]
  norm_num

theorem ratTrunc_8h : ratTrunc ((8 : ℚ) * 3600) = 8 * 3600 := by
  norm_num [ratTrunc]

theorem work_week_daily_case (ww : List (String × WWDay)) (wd : Fin 7)
    (wsd : String) (api : String)
    (hmem : (api, standard_order.getD (wd : ℕ) ("")) ∈ work_week_day_pairs) :
    ExpectedHours.daily_expected_seconds (work_week_expected_hours ww wd wsd) =
      (if (ExpectedHours.working_days
          (work_week_expected_hours ww wd wsd)).contains
          (standard_order.getD (wd : ℕ) ("")) = true then
        ratTrunc (parse_iso_duration
          (((ww.lookup api).getD ⟨none, none⟩).duration.getD ("PT0H")) * 3600)
      else 0) := by
  obtain ⟨hc, hl⟩ := buildWorkWeek_mem ww work_week_day_pairs api _ hmem
    (by decide)
  rw [work_week_expected_hours]
  dsimp only
  rw [hc, hl]
  by_cases hwd :
      ((ww.lookup api).getD ⟨none, none⟩).isWorkDay.getD false = true
  · rw [if_pos hwd, if_pos hwd]
  · rw [if_neg hwd, if_neg hwd]

/-- C8 amended: for every payload shape (including the default), every
weekday and every week-start setting, the daily expected seconds equal
the truncation of 3600 times the per-day configured capacity when the
day is listed in the result's working days, and zero when it is not.
The original strict-positivity half of the invariant is refuted
separately: a working day whose configured duration parses to zero (or
to a negative value) carries a nonpositive capacity. -/
theorem daily_capacity_spec (sched : Option SchedulePayload) (wd : Fin 7)
    (wsd : String) :
    ExpectedHours.daily_expected_seconds
        (calculate_expected_hours sched wd wsd) =
      (if (ExpectedHours.working_days
          (calculate_expected_hours sched wd wsd)).contains
          (standard_order.getD (wd : ℕ) ("")) = true then
        ratTrunc (day_capacity_hours sched
          (standard_order.getD (wd : ℕ) ("")) * 3600)
      else 0) := by
  rcases sched with _ | p
  · rw [calculate_expected_hours, day_capacity_hours, default_expected_hours]
    dsimp only
    fin_cases wd <;>
      first
        | rw [if_pos (by decide), if_pos (by decide), ratTrunc_8h]
        | rw [if_neg (by decide), if_neg (by decide)]
  · rw [calculate_expected_hours, day_capacity_hours]
    by_cases h1 : p.workCapacity.isSome = true ∧ p.workingDays.isSome = true
    · rw [if_pos h1, if_pos h1, uniform_expected_hours]
    · rw [if_neg h1, if_neg h1]
      by_cases h2 : (p.workWeek.getD []) = [] ∧ (p.daysOfWeek.getD []) ≠ []
      · rw [if_pos h2, if_pos h2, uniform_expected_hours]
      · rw [if_neg h2, if_neg h2]
        fin_cases wd
        · exact work_week_daily_case (p.workWeek.getD []) 0 wsd ("monday")
            (by decide)
        · exact work_week_daily_case (p.workWeek.getD []) 1 wsd ("tuesday")
            (by decide)
        · exact work_week_daily_case (p.workWeek.getD []) 2 wsd ("wednesday")
            (by decide)
        · exact work_week_daily_case (p.workWeek.getD []) 3 wsd ("thursday")
            (by decide)
        · exact work_week_daily_case (p.workWeek.getD []) 4 wsd ("friday")
            (by decide)
        · exact work_week_daily_case (p.workWeek.getD []) 5 wsd ("saturday")
            (by decide)
        · exact work_week_daily_case (p.workWeek.getD []) 6 wsd ("sunday")
            (by decide)

/-- C8 counterexample: a member-capacity payload listing MONDAY as a
working day with workCapacity PT0H produces a schedule in which Mon is a
working day whose daily capacity is zero, not strictly positive. -/
theorem working_day_zero_capacity_counterexample :
    (ExpectedHours.working_days
        (calculate_expected_hours (some zeroCapMember) 0 ("MONDAY"))).contains
      ("Mon") = true ∧
    ExpectedHours.daily_expected_seconds
      (calculate_expected_hours (some zeroCapMember) 0 ("MONDAY")) = 0 := by
  constructor
  · decide
  · show ExpectedHours.daily_expected_seconds
      (uniform_expected_hours [("Mon")] (parse_iso_duration ("PT0H")) 0
        ("MONDAY")) = 0
    rw [parse_pt0h, uniform_expected_hours]
    dsimp only
    rw [if_pos (by decide)]
    norm_num [ratTrunc]

theorem fetch_timer_project_error_iff (lookup : ProjectLookup)
    (t : TimeEntry) :
    fetch_timer_project lookup (some t) = Except.error () ↔
      ∃ pid, t.projectId = some pid ∧ pid ≠ "" ∧
        lookup pid = Except.error () := by
  rw [fetch_timer_project]
  rcases hp : t.projectId with _ | pid
  · simp
  · dsimp only
    by_cases hne : pid = ""
    · rw [if_pos hne]
      subst hne
      simp
    · rw [if_neg hne]
      constructor
      · intro h
        exact ⟨pid, rfl, hne, h⟩
      · rintro ⟨pid2, hp2, _, hl2⟩
        cases Option.some.inj hp2
        exact hl2

theorem fetch_timer_task_error_iff (lookupT : TaskLookup) (t : TimeEntry) :
    fetch_timer_task lookupT (some t) = Except.error () ↔
      ∃ tid, t.taskId = some tid ∧ tid ≠ "" ∧
        (t.projectId = none ∨
         ∃ pid, t.projectId = some pid ∧
           lookupT pid tid = Except.error ()) := by
  rw [fetch_timer_task]
  rcases ht : t.taskId with _ | tid
  · simp
  · dsimp only
    by_cases hne : tid = ""
    · rw [if_pos hne]
      subst hne
      simp
    · rw [if_neg hne]
      rcases hp : t.projectId with _ | pid
      · simp [hne]
      · dsimp only
        constructor
        · intro h
          exact ⟨tid, rfl, hne, Or.inr ⟨pid, rfl, h⟩⟩
        · rintro ⟨tid2, ht2, _, hcase⟩
          cases Option.some.inj ht2
          rcases hcase with hq | ⟨pid2, hp2, hl2⟩
          · exact absurd hq (by simp)
          · cases Option.some.inj hp2
            exact hl2

/-- C6 counterexample: the authenticated-user fetch succeeds but the
current-timer fetch raises, and the whole aggregation is a hard failure
anyway: the current-timer fetch is not shielded by any handler, so a
hard failure does not imply a failed user fetch. -/
theorem update_hard_failure_counterexample :
    async_update_data (Except.ok ("user1")) none (Except.error ())
      (Except.ok 0) (Except.ok (0, (""), (""))) (Except.ok emptyBreakdown)
      trivialLookup trivialTaskLookup 0 ("") 0 = Except.error () ∧
    (Except.ok ("user1") : Except Unit String) ≠ Except.error () := by
  constructor
  · rfl
  · intro h
    exact Except.noConfusion h

/-- C6 amended: the aggregation raises a hard failure exactly when the
authenticated-user fetch raises, the current-timer fetch raises, or a
live timer is present and its project detail fetch raises (a truthy
projectId whose lookup raises) or its task detail fetch raises (a truthy
taskId combined with either a missing projectId - the source indexes it
without a default - or a task lookup that raises). Every other
collaborator failure - member profile, daily, weekly, per-day breakdown,
and any project or task lookup that merely returns no data - degrades
the affected field to its zero or default value and the aggregation
still returns a complete result. -/
theorem update_failure_characterization (userE : Except Unit String)
    (mp : Option SchedulePayload) (timerE : Except Unit (Option TimeEntry))
    (dailyE : Except Unit ℤ) (weeklyE : Except Unit (ℤ × String × String))
    (breakdownE : Except Unit Breakdown) (lookup : ProjectLookup)
    (lookupT : TaskLookup) (now : ℚ) (now_str : String) (weekday : Fin 7) :
    async_update_data userE mp timerE dailyE weeklyE breakdownE lookup
        lookupT now now_str weekday = Except.error () ↔
      userE = Except.error () ∨ timerE = Except.error () ∨
      (∃ t, timerE = Except.ok (some t) ∧
        ((∃ pid, t.projectId = some pid ∧ pid ≠ "" ∧
           lookup pid = Except.error ()) ∨
         (∃ tid, t.taskId = some tid ∧ tid ≠ "" ∧
           (t.projectId = none ∨
            ∃ pid, t.projectId = some pid ∧
              lookupT pid tid = Except.error ())))) := by
  rcases userE with u | uid
  · cases u
    exact iff_of_true rfl (Or.inl rfl)
  · rcases timerE with v | timer
    · cases v
      exact iff_of_true rfl (Or.inr (Or.inl rfl))
    · rcases timer with _ | t
      · refine iff_of_false ?_ ?_
        · intro h
          exact Except.noConfusion h
        · rintro (h | h | ⟨t, ht, _⟩)
          · exact Except.noConfusion h
          · exact Except.noConfusion h
          · exact Option.noConfusion (Except.ok.inj ht)
      · rcases hp : fetch_timer_project lookup (some t) with pu | pd
        · cases pu
          refine iff_of_true ?_ (Or.inr (Or.inr ⟨t, rfl,
            Or.inl ((fetch_timer_project_error_iff lookup t).mp hp)⟩))
          rw [async_update_data.eq_def]
          dsimp only [Except.bind]
          rw [hp]
        · rcases ht2 : fetch_timer_task lookupT (some t) with tu | td
          · cases tu
            refine iff_of_true ?_ (Or.inr (Or.inr ⟨t, rfl,
              Or.inr ((fetch_timer_task_error_iff lookupT t).mp ht2)⟩))
            rw [async_update_data.eq_def]
            dsimp only [Except.bind]
            rw [hp]
            dsimp only [Except.bind]
            rw [ht2]
          · refine iff_of_false ?_ ?_
            · intro h
              rw [async_update_data.eq_def] at h
              dsimp only [Except.bind] at h
              rw [hp] at h
              dsimp only [Except.bind] at h
              rw [ht2] at h
              dsimp only [Except.bind] at h
              exact Except.noConfusion h
            · rintro (h | h | ⟨t2, ht', hdetail⟩)
              · exact Except.noConfusion h
              · exact Except.noConfusion h
              · cases Option.some.inj (Except.ok.inj ht')
                rcases hdetail with hd | hd
                · rw [← fetch_timer_project_error_iff lookup t] at hd
                  rw [hp] at hd
                  exact Except.noConfusion hd
                · rw [← fetch_timer_task_error_iff lookupT t] at hd
                  rw [ht2] at hd
                  exact Except.noConfusion hd
